import Mathlib

/-!
# Verification of the `ZShepherd` core (`lib/shepherd.js`)

A shallow embedding of the zigbee-shepherd façade: the per-endpoint ZCL
methods (`ep.read`, `ep.report`), the cache finalizer `_updateFinalizer`,
the mount serializer, `reset`, `list`, and the breadth-first topology
scanner `lqiScan`.  JavaScript objects used as string-keyed maps are
embedded as association lists (preserving insertion order, as JS object
iteration does for non-integer keys); promises settle into `Except` values;
the event stream is returned explicitly.
-/

namespace ZShepherd

/-- A key of a JS object used as a map: either a name resolved through the
ZCL catalog (`zclId`) or the raw numeric id when the catalog has no entry. -/
inductive Key where
  | name (s : String)
  | num (n : Nat)
deriving DecidableEq, Repr

/-- The external ZCL identifier catalog (`zcl-id`): cluster id → cluster key,
(cluster id, attr id) → attribute key, and (cluster id, attr id) → numeric
attribute value.  `none` models a lookup that returns `null`/`undefined`. -/
structure Catalog where
  clusterKey : Nat → Option String
  attrKey : Nat → Nat → Option String
  attrVal : Nat → Nat → Option Nat

/-- `zclId.cluster(cId)`: `cIdString = cIdString ? cIdString.key : cId`. -/
def resolveClusterKey (cat : Catalog) (cId : Nat) : Key :=
  match cat.clusterKey cId with
  | some s => Key.name s
  | none => Key.num cId

/-- `zclId.attr(cId, attrId)` then `.key`, with numeric fallback. -/
def resolveAttrKey (cat : Catalog) (cId attrId : Nat) : Key :=
  match cat.attrKey cId attrId with
  | some s => Key.name s
  | none => Key.num attrId

/-- A cached attribute value: `some v` for a numeric value, `none` for JS
`null` (stored after a failed read). -/
abbrev AttrVal := Option Int

/-- The `attrs` snapshot of one cluster: a JS object `attrName → value`. -/
abbrev AttrMap := List (Key × AttrVal)

/-- The endpoint's cluster table dump: `clusterKey → { attrs }`. -/
abbrev Clusters := List (Key × AttrMap)

/-- Association-list lookup, first match (JS property access). -/
def alookup {α : Type} : List (Key × α) → Key → Option α
  | [], _ => none
  | kv :: rest, k => if kv.1 = k then some kv.2 else alookup rest k

/-- JS object assignment `m[k] = v`: replace in place, or append a new key. -/
def upsert {α : Type} : List (Key × α) → Key → α → List (Key × α)
  | [], k, v => [(k, v)]
  | kv :: rest, k, v => if kv.1 = k then (k, v) :: rest else kv :: upsert rest k v

/-- One record of a foundation `read` response (or of an attribute report):
`{ attrId, status, dataType, attrData }`.  Report records carry no status;
their `status` field is irrelevant to the reported pass (proved below). -/
structure ReadRec where
  attrId : Nat
  status : Nat
  dataType : Option Nat := none
  attrData : AttrVal := none
deriving DecidableEq, Repr

/-- The `_.forEach(attrs, ...)` loop of `_updateFinalizer` building the
`newAttrs` object, one record at a time. -/
def recsToAttrsAux (cat : Catalog) (cId : Nat) (reported : Bool) :
    List ReadRec → AttrMap → AttrMap
  | [], m => m
  | r :: rest, m =>
    recsToAttrsAux cat cId reported rest
      (upsert m (resolveAttrKey cat cId r.attrId)
        (if reported then r.attrData
         else if r.status = 0 then r.attrData else none))

/-- The `newAttrs` object built by `_updateFinalizer` from response records:
reported values are stored unconditionally, read responses store `attrData`
on status 0 and `null` otherwise. -/
def recsToAttrs (cat : Catalog) (cId : Nat) (reported : Bool)
    (recs : List ReadRec) : AttrMap :=
  recsToAttrsAux cat cId reported recs []

/-- Modelled from the spec: `zutils.objectDiff` lives in
`lib/components/zutils.js`, which is not part of the provided source.  Per
the spec, the diff of the old snapshot against the new one holds exactly
the new entries whose value differs from the previously cached one (a key
absent from the old snapshot counts as differing), and an update changes
the cache iff the value differs. -/
def objectDiff (old new : AttrMap) : AttrMap :=
  new.filter (fun kv => decide (alookup old kv.1 ≠ some kv.2))

/-- Apply a diff to a cluster's `attrs`: one `set` per diff entry. -/
def applyDiff (old : AttrMap) (diff : AttrMap) : AttrMap :=
  diff.foldl (fun m kv => upsert m kv.1 kv.2) old

/-- The `devChange` payload: `{ cid, data: diff }`. -/
abbrev DevChange := Key × AttrMap

/-- `ZShepherd.prototype._updateFinalizer(ep, cId, attrs, reported)` on the
path where response records are supplied (the `attrs`-less path queries the
external AF layer instead and is outside this embedding).  Returns the new
cluster table and the emitted `devChange` payload, if any.  When the
cluster has no entry in the dump, the JS code throws reading
`clusters[cIdString].attrs` and the failure is swallowed (`.fail`), so
nothing changes and nothing is emitted. -/
def updateFinalizer (cat : Catalog) (clusters : Clusters) (cId : Nat)
    (attrs : List ReadRec) (reported : Bool) :
    Clusters × Option DevChange :=
  let cidK := resolveClusterKey cat cId
  match alookup clusters cidK with
  | none => (clusters, none)
  | some oldAttrs =>
    let newAttrs := recsToAttrs cat cId reported attrs
    let diff := objectDiff oldAttrs newAttrs
    if diff.isEmpty then (clusters, none)
    else (upsert clusters cidK (applyDiff oldAttrs diff), some (cidK, diff))

/-- A request handed to `af.zclFoundation`: cluster id, command name and,
for `read`, the list of requested attribute ids. -/
structure FoundationCall where
  cId : Nat
  cmd : String
  zclData : List Nat
deriving DecidableEq, Repr

/-- The observable outcome of one `ep.read` call. -/
structure EpReadOut where
  issued : FoundationCall
  result : Except String AttrVal
  clusters : Clusters
  devChange : Option DevChange

/-- `ep.read(cId, attrId)` as attached by `_attachZclMethods`, composed with
`ZShepherd.prototype._foundation` for the `read` command: resolve the
attribute through the catalog (numeric fallback), issue foundation
`read [{ attrId }]`, run `_updateFinalizer` on the response payload, then
resolve with the first record's `attrData` on status 0 or reject with
`request unsuccess: <status>`.  `rsp` is the payload the radio returned. -/
def epRead (cat : Catalog) (clusters : Clusters) (cId attrId : Nat)
    (rsp : List ReadRec) : EpReadOut :=
  let attrV := (cat.attrVal cId attrId).getD attrId
  let fin := updateFinalizer cat clusters cId rsp false
  { issued := ⟨cId, "read", [attrV]⟩
    result :=
      match rsp with
      | [] => Except.error "TypeError: cannot read property of undefined"
      | r :: _ =>
        if r.status = 0 then Except.ok r.attrData
        else Except.error ("request unsuccess: " ++ toString r.status)
    clusters := fin.1
    devChange := fin.2 }

/-! ## `ep.report` (the per-endpoint report trampoline) -/

/-- The two sides of an `ep.report(cId, attrId, minInt, maxInt, repChange)`
call: the promise returned to the caller (`Q.fcall(...).nodeify(callback)`)
and the internal `deferred` created at the top of `ep.report`, which is
rejected with the ZCL status key but never handed to the caller. -/
structure EpReportOut where
  callerResult : Except String Unit
  internalRejection : Option String

/-- `ep.report` on the configure-report path (`cfgRpt = true`): `dlgEp` says
whether `coord.getDelegator(ep.getProfId())` found a delegator, `bindOk`
is the outcome of `ep.bind(cId, dlgEp)`, `rspStatus` is the first record's
status in the `configReport` response, and `statusKey` models
`zclId.status(status).key`.  `profId` feeds the error message. -/
def epReport (profId : Nat) (dlgEp : Bool) (bindOk : Bool) (rspStatus : Nat)
    (statusKey : Nat → String) : EpReportOut :=
  if dlgEp then
    if bindOk then
      if rspStatus = 0 then
        { callerResult := Except.ok (), internalRejection := none }
      else
        { callerResult := Except.ok ()
          internalRejection := some (statusKey rspStatus) }
    else
      { callerResult := Except.error "bind failed", internalRejection := none }
  else
    { callerResult :=
        Except.error ("Profile: " ++ toString profId ++ " is not supported.")
      internalRejection := none }

/-! ## `reset` -/

/-- The `mode` argument of `reset`: a string or a number
(`proving.stringOrNumber`). -/
inductive Mode where
  | str (s : String)
  | num (n : Int)
deriving DecidableEq, Repr

/-- The guard `mode === 'hard' || mode === 0`. -/
def isHardMode : Mode → Bool
  | Mode.str s => s = "hard"
  | Mode.num n => n = 0

/-- The observable effects of one `reset(mode)` call. -/
structure ResetTrace where
  removesIssued : List Nat
  emptinessChecked : Bool
  radioReset : Mode

/-- `ZShepherd.prototype.reset(mode)`: on a hard reset, issue one store
`remove` per id currently in the devbox and, once all of them resolve,
check `devbox.isEmpty()`; a removal failure is only logged.  In every case
`controller.reset(mode)` is returned (issued) unconditionally.  `storeIds`
is `devbox.exportAllIds()`; `removeOk id` is whether the store removal of
`id` succeeds. -/
def reset (mode : Mode) (storeIds : List Nat) (removeOk : Nat → Bool) :
    ResetTrace :=
  if isHardMode mode then
    { removesIssued := storeIds
      emptinessChecked := storeIds.all removeOk
      radioReset := mode }
  else
    { removesIssued := [], emptinessChecked := false, radioReset := mode }

/-! ## `list` -/

/-- A registered device, as far as `list` observes it: its IEEE address, the
`incomplete` flag, the devbox-assigned `id`, its endpoints and the rest of
its dump (collapsed into one opaque field). -/
structure Dev where
  ieeeAddr : Nat
  incomplete : Bool
  id : Nat
  endpoints : List Nat
  info : Nat
deriving DecidableEq, Repr

/-- `_.omit(found.dump(), ['id', 'endpoints'])`. -/
structure PubDump where
  ieeeAddr : Nat
  incomplete : Bool
  info : Nat
deriving DecidableEq, Repr

/-- The dump of a device with `id` and `endpoints` removed. -/
def dumpPub (d : Dev) : PubDump :=
  { ieeeAddr := d.ieeeAddr, incomplete := d.incomplete, info := d.info }

/-- The `ieeeAddrs` argument of `list`: absent, a single IEEE string, or an
array of IEEE strings (addresses embedded as numbers). -/
inductive ListArg where
  | noarg
  | one (a : Nat)
  | many (l : List Nat)
deriving DecidableEq, Repr

/-- `ZShepherd.prototype._findDevByAddr` restricted to IEEE lookup: linear
scan of the devbox, first match. -/
def findDevByAddr (devs : List Dev) (a : Nat) : Option Dev :=
  devs.find? (fun d => d.ieeeAddr == a)

/-- `ZShepherd.prototype.list(ieeeAddrs, showIncomplete)`: a single string
is wrapped into an array; with no argument the addresses of every device
whose `incomplete` flag passes the filter are listed; each address is then
looked up and mapped to its public dump, an unknown address leaving an
`undefined` slot (`none`) in place. -/
def listFn (devs : List Dev) (arg : ListArg) (showIncomplete : Bool) :
    List (Option PubDump) :=
  let addrs :=
    match arg with
    | ListArg.one a => [a]
    | ListArg.many l => l
    | ListArg.noarg =>
      ((devs.filter (fun (d : Dev) => showIncomplete || !d.incomplete)).map
        (fun (d : Dev) => d.ieeeAddr))
  addrs.map (fun a => (findDevByAddr devs a).map dumpPub)

/-! ## `mount`: one attempt through the promise chain -/

/-- The coordinator as `mount` observes it: its endpoint-id list and the
keys of its endpoint map. -/
structure Coord where
  epList : List Nat
  endpoints : List Nat
deriving DecidableEq, Repr

/-- `mountId = Math.max.apply(null, coord.epList)` followed by
`mountId > 10 ? mountId + 1 : 11` (endpoint ids 1–10 are reserved for
delegators; `Math.max` of an empty list is `-Infinity`, which also yields
11). -/
def assignEpId (epList : List Nat) : Nat :=
  match epList.max? with
  | some m => if m > 10 then m + 1 else 11
  | none => 11

/-- The shepherd state `mount` reads and mutates: the mounted-app list
`_zApp` (apps as numeric tokens) and the coordinator. -/
structure AppState where
  zApps : List Nat
  coord : Option Coord
deriving DecidableEq, Repr

/-- Outcomes of the external steps of a mount: `controller.registerEp` and
the coordinator-info refresh (`querie.coordInfo` + devbox sync). -/
structure MountEnv where
  registerOk : Bool
  coordInfoOk : Bool
deriving DecidableEq, Repr

/-- One pass of `ZShepherd.prototype.mount`'s `Q.fcall` chain (the queueing
wrapper is modelled separately): reject a duplicate app, push the app into
`_zApp`, then require a coordinator, allocate the endpoint id, insert the
new Coordpoint into `coord.endpoints`, run the external steps, and resolve
with the assigned endpoint id.  Note the app stays in `_zApp` on every
failure after the duplicate check. -/
def mountAttempt (st : AppState) (env : MountEnv) (zApp : Nat) :
    AppState × Except String Nat :=
  if zApp ∈ st.zApps then (st, Except.error "zApp already exists.")
  else
    let st1 : AppState := { st with zApps := st.zApps ++ [zApp] }
    match st.coord with
    | none => (st1, Except.error "Coordinator has not been initialized yet.")
    | some c =>
      let epId := assignEpId c.epList
      let st2 : AppState :=
        { st1 with coord := some { c with endpoints := c.endpoints ++ [epId] } }
      if env.registerOk then
        if env.coordInfoOk then (st2, Except.ok epId)
        else (st2, Except.error "coordInfo failed")
      else (st2, Except.error "registerEp failed")

/-- `ZShepherd.prototype.stop` clears the mounted-app list
(`self._zApp = []`). -/
def stopApps (st : AppState) : AppState := { st with zApps := [] }

/-! ## The mount serializer (`_mounting` / `_mountQueue`) -/

/-- Scheduler-level events around `mount`: a new `mount(zApp)` call arrives
(apps as numeric tokens), the in-flight mount's promise chain completes
(resolved or rejected), or the `process.nextTick` scheduled by the `done`
handler fires. -/
inductive MEvent where
  | arrive (id : Nat)
  | complete (ok : Bool)
  | tick
deriving DecidableEq, Repr

/-- The serializer state: the `_mounting` flag, the identity of the mount
whose chain is running, the `_mountQueue` (FIFO), whether a queue-drain
tick is pending, and the settlement log `(mount, resolved?)` in order. -/
structure MountQState where
  mounting : Bool
  inflight : Option Nat
  queue : List Nat
  tickScheduled : Bool
  settled : List (Nat × Bool)
deriving DecidableEq, Repr

/-- The serializer's initial state (`_mounting = false`, empty queue). -/
def mqInit : MountQState :=
  { mounting := false, inflight := none, queue := [], tickScheduled := false,
    settled := [] }

/-- One scheduler step.  An arrival while `_mounting` pushes a re-invocation
onto `_mountQueue` and otherwise starts the chain at once.  Completion (the
`done` handler) records the settlement, clears `_mounting` and schedules a
`process.nextTick` drain iff the queue is non-empty.  The tick shifts the
queue head and re-invokes `mount` for it: it starts if nothing is mounting,
and is re-queued at the back if a fresh arrival sneaked in after completion
but before the tick. -/
def mqStep (s : MountQState) : MEvent → MountQState
  | MEvent.arrive id =>
    if s.mounting then { s with queue := s.queue ++ [id] }
    else { s with mounting := true, inflight := some id }
  | MEvent.complete ok =>
    match s.inflight with
    | none => s
    | some id =>
      { s with mounting := false, inflight := none,
               settled := s.settled ++ [(id, ok)],
               tickScheduled := !s.queue.isEmpty }
  | MEvent.tick =>
    if s.tickScheduled then
      match s.queue with
      | [] => { s with tickScheduled := false }
      | h :: t =>
        if s.mounting then { s with queue := t ++ [h], tickScheduled := false }
        else { s with mounting := true, inflight := some h, queue := t,
                      tickScheduled := false }
    else s

/-- Run a sequence of scheduler events from the initial state. -/
def mqRun (evs : List MEvent) : MountQState := evs.foldl mqStep mqInit

/-! ## `lqiScan` -/

/-- One entry of an `lqi` response after the mapping in
`ZShepherd.prototype.lqi`: `{ ieeeAddr, nwkAddr, lqi }`.  IEEE addresses are
embedded as numbers; `0` stands for `"0x0000000000000000"`. -/
structure Neighbor where
  ieeeAddr : Nat
  nwkAddr : Nat
  lqi : Nat
deriving DecidableEq, Repr

/-- One record of the scan result (`noDuplicate` value): a neighbour entry
stamped with `parent` and `status`, or the pre-seeded start record (no
`parent`, no `nwkAddr`/`lqi`).  `error` says whether a failed sub-request
stamped an `error` field onto the record. -/
structure ScanRec where
  ieeeAddr : Nat
  nwkAddr : Option Nat := none
  lqi : Option Nat := none
  parent : Option Nat := none
  status : String
  typ : Option String := none
  error : Bool := false
deriving DecidableEq, Repr

/-- What the device registry knows about an address: `dev.status` and
`dev.type`. -/
structure DevEntry where
  status : String
  typ : String
deriving DecidableEq, Repr

/-- The scanner's environment: the registry (`_findDevByAddr`) and the
radio's single-hop LQI responses (`none` models a rejected `lqi` call). -/
structure ScanEnv where
  registry : Nat → Option DevEntry
  lqiResp : Nat → Option (List Neighbor)

/-- The body of `processResponse(parent)` over one response `data` (the
`for` loop, with `nd` the `noDuplicate` map in insertion order and `set` the
addresses queued for the next level): skip the all-zero IEEE, stamp
`parent` and `status` (`offline` if the registry does not know the
address), record a first sighting into `noDuplicate`, and collect the newly
seen Routers into `set`. -/
def procData (env : ScanEnv) (parent : Nat) :
    List Neighbor → List ScanRec → List Nat → List ScanRec × List Nat
  | [], nd, set => (nd, set)
  | nb :: rest, nd, set =>
    if nb.ieeeAddr = 0 then procData env parent rest nd set
    else
      let dev := env.registry nb.ieeeAddr
      let r0 : ScanRec :=
        { ieeeAddr := nb.ieeeAddr, nwkAddr := some nb.nwkAddr,
          lqi := some nb.lqi, parent := some parent,
          status := match dev with | some d => d.status | none => "offline" }
      if nd.any (fun r => r.ieeeAddr == nb.ieeeAddr) then
        procData env parent rest nd set
      else
        procData env parent rest (nd ++ [r0])
          (match dev with
           | some d => if d.typ = "Router" then set ++ [nb.ieeeAddr] else set
           | none => set)

/-- A failed sub-request: `noDuplicate[ieeeAddr].error = err` through the
`.catch` handler, which then yields an empty neighbour list. -/
def markError (nd : List ScanRec) (addr : Nat) : List ScanRec :=
  nd.map (fun r => if r.ieeeAddr == addr then { r with error := true } else r)

/-- One breadth-first level: scan every frontier node, merging first
sightings into `noDuplicate` and collecting the next frontier.  A rejected
sub-request stamps `error` on the node's deduped record and contributes no
neighbours. -/
def scanStep (env : ScanEnv) :
    List Nat → List ScanRec → List Nat → List ScanRec × List Nat
  | [], nd, next => (nd, next)
  | addr :: rest, nd, next =>
    match env.lqiResp addr with
    | none => scanStep env rest (markError nd addr) next
    | some data =>
      let p := procData env addr data nd []
      scanStep env rest p.1 (next ++ p.2)

/-- The level-synchronous loop: the next level starts only once the whole
current level has been processed.  `fuel` bounds the nesting depth (the JS
recursion terminates because only first sightings re-enqueue). -/
def scanLoop (env : ScanEnv) : Nat → List ScanRec → List Nat → List ScanRec
  | 0, nd, _ => nd
  | _ + 1, nd, [] => nd
  | fuel + 1, nd, frontier =>
    let p := scanStep env frontier nd []
    scanLoop env fuel p.1 p.2

/-- The record `lqiScan` seeds into `noDuplicate` for the start address:
`{ status: 'online', ieeeAddr: startAddr, type: 'Coordinator' }`. -/
def seedRec (startAddr : Nat) : ScanRec :=
  { ieeeAddr := startAddr, status := "online", typ := some "Coordinator" }

/-- `ZShepherd.prototype.lqiScan(startAddr)`: seed `noDuplicate[startAddr]`
with the start record, issue the first LQI request (whose failure rejects
the whole scan — unlike sub-requests it has no catch), then run the
breadth-first loop and return `Object.values(noDuplicate)`. -/
def lqiScan (env : ScanEnv) (startAddr : Nat) (fuel : Nat) :
    Except String (List ScanRec) :=
  match env.lqiResp startAddr with
  | none => Except.error "lqi request failed"
  | some data =>
    let p := procData env startAddr data [seedRec startAddr] []
    Except.ok (scanLoop env fuel p.1 p.2)

/-- The scan invariant carried through the breadth-first loop: the
`noDuplicate` map has pairwise-distinct IEEE addresses, its first entry is
the pre-seeded start record (whose `parent` is never set), and — when the
start address is itself non-zero — no record carries the all-zero IEEE. -/
def ScanInv (start : Nat) (nd : List ScanRec) : Prop :=
  (nd.map ScanRec.ieeeAddr).Nodup ∧
  (∃ r rest, nd = r :: rest ∧ r.ieeeAddr = start ∧ r.parent = none) ∧
  (start ≠ 0 → ∀ r ∈ nd, r.ieeeAddr ≠ 0)

/-! ## Concrete instances (used by witnesses and counterexamples) -/

/-- A catalog with no entries: every id falls back to its numeric form. -/
def catNone : Catalog :=
  { clusterKey := fun _ => none, attrKey := fun _ _ => none,
    attrVal := fun _ _ => none }

/-- A catalog fragment: cluster 0 is `genBasic`, its attribute 3 is
`hwVersion` with numeric value 3. -/
def catBasic : Catalog :=
  { clusterKey := fun c => if c = 0 then some "genBasic" else none
    attrKey := fun c a => if c = 0 ∧ a = 3 then some "hwVersion" else none
    attrVal := fun c a => if c = 0 ∧ a = 3 then some 3 else none }

/-- A scan environment in which every node answers with an empty neighbour
table and the registry is empty. -/
def scanEnvEmpty : ScanEnv :=
  { registry := fun _ => none, lqiResp := fun _ => some [] }

/-- A registered, interview-complete device at IEEE address 10. -/
def devA : Dev :=
  { ieeeAddr := 10, incomplete := false, id := 0, endpoints := [1], info := 5 }

/-! ## Helper lemmas: association lists -/

theorem alookup_upsert_self {α : Type} (m : List (Key × α)) (k : Key) (v : α) :
    alookup (upsert m k v) k = some v := by
  induction m with
  | nil => simp [upsert, alookup]
  | cons kv rest ih =>
    by_cases h : kv.1 = k
    · simp [upsert, h, alookup]
    · simp [upsert, h, alookup, ih]

theorem alookup_upsert_ne {α : Type} (m : List (Key × α)) (k k' : Key) (v : α)
    (h : k' ≠ k) : alookup (upsert m k v) k' = alookup m k' := by
  induction m with
  | nil => simp [upsert, alookup, Ne.symm h]
  | cons kv rest ih =>
    by_cases hkv : kv.1 = k
    · subst hkv
      simp [upsert, alookup, Ne.symm h]
    · simp [upsert, hkv, alookup, ih]

theorem keys_upsert {α : Type} (m : List (Key × α)) (k : Key) (v : α) :
    (upsert m k v).map Prod.fst =
      if k ∈ m.map Prod.fst then m.map Prod.fst
      else m.map Prod.fst ++ [k] := by
  induction m with
  | nil => simp [upsert]
  | cons kv rest ih =>
    by_cases h : kv.1 = k
    · subst h
      simp [upsert]
    · have h' : ¬ k = kv.1 := fun hh => h hh.symm
      simp only [upsert, if_neg h, List.map_cons, List.mem_cons, h',
        false_or, ih]
      by_cases hm : k ∈ rest.map Prod.fst <;> simp [hm]

theorem nodup_keys_upsert {α : Type} (m : List (Key × α)) (k : Key) (v : α)
    (h : (m.map Prod.fst).Nodup) : ((upsert m k v).map Prod.fst).Nodup := by
  rw [keys_upsert]
  by_cases hm : k ∈ m.map Prod.fst
  · simpa [hm] using h
  · simp [hm, List.nodup_append, h, List.disjoint_singleton]

theorem alookup_eq_none_of_not_mem {α : Type} (m : List (Key × α)) (k : Key)
    (h : k ∉ m.map Prod.fst) : alookup m k = none := by
  induction m with
  | nil => simp [alookup]
  | cons kv rest ih =>
    simp only [List.map_cons, List.mem_cons] at h
    push_neg at h
    have : ¬ kv.1 = k := fun hh => h.1 hh.symm
    simp [alookup, this, ih h.2]

theorem mem_keys_of_alookup {α : Type} (m : List (Key × α)) (k : Key) (v : α)
    (h : alookup m k = some v) : k ∈ m.map Prod.fst := by
  by_contra hmem
  rw [alookup_eq_none_of_not_mem m k hmem] at h
  exact Option.noConfusion h

theorem alookup_filter {α : Type} (m : List (Key × α)) (p : Key × α → Bool)
    (k : Key) (v : α) (hnd : (m.map Prod.fst).Nodup)
    (h : alookup m k = some v) :
    alookup (m.filter p) k = if p (k, v) then some v else none := by
  induction m with
  | nil => simp [alookup] at h
  | cons kv rest ih =>
    simp only [List.map_cons, List.nodup_cons] at hnd
    by_cases hk : kv.1 = k
    · have hv : kv = (k, v) := by
        have : some kv.2 = some v := by simpa [alookup, hk] using h
        have h2 : kv.2 = v := Option.some.injEq _ _ ▸ this
        calc kv = (kv.1, kv.2) := rfl
          _ = (k, v) := by rw [hk, h2]
      subst hv
      by_cases hp : p (k, v)
      · simp [List.filter_cons, hp, alookup]
      · have hout : k ∉ (rest.filter p).map Prod.fst := fun hmem =>
          hnd.1 (((List.filter_sublist rest).map Prod.fst).subset hmem)
        simp [List.filter_cons, hp, alookup_eq_none_of_not_mem _ _ hout]
    · have hrest : alookup rest k = some v := by simpa [alookup, hk] using h
      by_cases hp : p kv
      · simp [List.filter_cons, hp, alookup, hk, ih hnd.2 hrest]
      · simp [List.filter_cons, hp, ih hnd.2 hrest]

theorem alookup_applyDiff (d old : AttrMap) (k : Key)
    (hnd : (d.map Prod.fst).Nodup) :
    alookup (applyDiff old d) k = (alookup d k).or (alookup old k) := by
  induction d generalizing old with
  | nil => simp [applyDiff, alookup, Option.or]
  | cons kv rest ih =>
    simp only [List.map_cons, List.nodup_cons] at hnd
    have hstep : applyDiff old (kv :: rest)
        = applyDiff (upsert old kv.1 kv.2) rest := by
      simp [applyDiff]
    rw [hstep, ih _ hnd.2]
    by_cases hk : kv.1 = k
    · subst hk
      have hnone : alookup rest kv.1 = none :=
        alookup_eq_none_of_not_mem _ _ hnd.1
      simp [alookup, hnone, alookup_upsert_self, Option.or]
    · simp [alookup, hk, alookup_upsert_ne old kv.1 k kv.2 (fun hh => hk hh.symm)]

theorem mem_upsert {α : Type} (m : List (Key × α)) (k : Key) (v : α)
    (kv : Key × α) (h : kv ∈ upsert m k v) : kv ∈ m ∨ kv = (k, v) := by
  induction m with
  | nil => simpa [upsert] using h
  | cons kv0 rest ih =>
    by_cases hk : kv0.1 = k
    · simp only [upsert, if_pos hk, List.mem_cons] at h
      rcases h with h | h
      · exact Or.inr h
      · exact Or.inl (List.mem_cons_of_mem _ h)
    · simp only [upsert, if_neg hk, List.mem_cons] at h
      rcases h with h | h
      · exact Or.inl (h ▸ List.mem_cons_self _ _)
      · rcases ih h with h' | h'
        · exact Or.inl (List.mem_cons_of_mem _ h')
        · exact Or.inr h'

/-! ## Helper lemmas: the `newAttrs` builder -/

theorem nodup_keys_recsToAttrsAux (cat : Catalog) (cId : Nat) (rep : Bool)
    (recs : List ReadRec) :
    ∀ acc : AttrMap, (acc.map Prod.fst).Nodup →
      ((recsToAttrsAux cat cId rep recs acc).map Prod.fst).Nodup := by
  induction recs with
  | nil => intro acc h; simpa [recsToAttrsAux] using h
  | cons r rest ih =>
    intro acc h
    exact ih _ (nodup_keys_upsert _ _ _ h)

theorem nodup_keys_recsToAttrs (cat : Catalog) (cId : Nat) (rep : Bool)
    (recs : List ReadRec) :
    ((recsToAttrs cat cId rep recs).map Prod.fst).Nodup :=
  nodup_keys_recsToAttrsAux cat cId rep recs [] (by simp)

theorem mem_recsToAttrsAux_failed (cat : Catalog) (cId : Nat)
    (recs : List ReadRec) (hall : ∀ r ∈ recs, r.status ≠ 0) :
    ∀ (acc : AttrMap) (kv : Key × AttrVal),
      kv ∈ recsToAttrsAux cat cId false recs acc →
      kv ∈ acc ∨ (kv.2 = none ∧
        ∃ r ∈ recs, kv.1 = resolveAttrKey cat cId r.attrId) := by
  induction recs with
  | nil => intro acc kv h; exact Or.inl (by simpa [recsToAttrsAux] using h)
  | cons r rest ih =>
    intro acc kv h
    have hr : r.status ≠ 0 := hall r (List.mem_cons_self _ _)
    have hrest : ∀ r' ∈ rest, r'.status ≠ 0 := fun r' hm =>
      hall r' (List.mem_cons_of_mem _ hm)
    rcases ih hrest _ kv h with hacc | hnew
    · rcases mem_upsert _ _ _ _ hacc with hacc' | heq
      · exact Or.inl hacc'
      · refine Or.inr ⟨?_, r, List.mem_cons_self _ _, ?_⟩
        · rw [heq]; simp [hr]
        · rw [heq]
    · rcases hnew with ⟨hv, r', hm, hk⟩
      exact Or.inr ⟨hv, r', List.mem_cons_of_mem _ hm, hk⟩

theorem recsToAttrs_failed (cat : Catalog) (cId : Nat) (recs : List ReadRec)
    (hall : ∀ r ∈ recs, r.status ≠ 0) (kv : Key × AttrVal)
    (h : kv ∈ recsToAttrs cat cId false recs) :
    kv.2 = none ∧ ∃ r ∈ recs, kv.1 = resolveAttrKey cat cId r.attrId := by
  rcases mem_recsToAttrsAux_failed cat cId recs hall [] kv h with hacc | hok
  · simp at hacc
  · exact hok

theorem recsToAttrsAux_status_irrel (cat : Catalog) (cId : Nat)
    (f : ReadRec → Nat) (recs : List ReadRec) :
    ∀ acc : AttrMap,
      recsToAttrsAux cat cId true (recs.map fun r => { r with status := f r }) acc
        = recsToAttrsAux cat cId true recs acc := by
  induction recs with
  | nil => intro acc; rfl
  | cons r rest ih => intro acc; simp [recsToAttrsAux, ih]

/-- The reported pass never reads a record's status: re-stamping every
status leaves `newAttrs` unchanged. -/
theorem recsToAttrs_status_irrel (cat : Catalog) (cId : Nat)
    (f : ReadRec → Nat) (recs : List ReadRec) :
    recsToAttrs cat cId true (recs.map fun r => { r with status := f r })
      = recsToAttrs cat cId true recs :=
  recsToAttrsAux_status_irrel cat cId f recs []

/-! ## Claim C1 -/

/-- C1: `ep.read(cId, attrId)` issues foundation `read [{attrId}]` (the
attribute resolved through the catalog, numeric fallback); if the first
returned record has status 0 the call resolves with its `attrData`, and
otherwise it rejects with `request unsuccess: <status>` carrying the
record's status code. -/
theorem ep_read_spec (cat : Catalog) (clusters : Clusters)
    (cId attrId : Nat) (r : ReadRec) (rest : List ReadRec) :
    (epRead cat clusters cId attrId (r :: rest)).issued
        = ⟨cId, "read", [(cat.attrVal cId attrId).getD attrId]⟩ ∧
    (r.status = 0 →
      (epRead cat clusters cId attrId (r :: rest)).result
        = Except.ok r.attrData) ∧
    (r.status ≠ 0 →
      (epRead cat clusters cId attrId (r :: rest)).result
        = Except.error ("request unsuccess: " ++ toString r.status)) := by
  refine ⟨rfl, fun h => ?_, fun h => ?_⟩
  · simp [epRead, h]
  · simp [epRead, h]

/-- C1 witness: reading `hwVersion` of `genBasic`, the radio answering
`[{attrId:0, status:0, dataType:0x21, attrData:2400}]`, issues
`read [{attrId: 3}]` and resolves with 2400. -/
theorem ep_read_spec_witness :
    (epRead catBasic [] 0 3
        [{ attrId := 0, status := 0, dataType := some 33,
           attrData := some 2400 }]).issued = ⟨0, "read", [3]⟩ ∧
    (epRead catBasic [] 0 3
        [{ attrId := 0, status := 0, dataType := some 33,
           attrData := some 2400 }]).result = Except.ok (some 2400) := by
  have h := ep_read_spec catBasic [] 0 3
    { attrId := 0, status := 0, dataType := some 33, attrData := some 2400 } []
  exact ⟨h.1, h.2.1 rfl⟩

/-! ## Claim C2 -/

/-- C2 (amended): when every record of the read response has non-zero
status the call rejects with `request unsuccess: <first status>`, and no
`devChange` is emitted provided the prior cache holds `null` for every
attribute named in the response (in particular when the attributes were
never successfully read); the cluster-missing case also emits nothing. -/
theorem ep_read_all_failed (cat : Catalog) (clusters : Clusters)
    (cId attrId : Nat) (r : ReadRec) (rest : List ReadRec)
    (hall : ∀ rec ∈ r :: rest, rec.status ≠ 0)
    (hcache : ∀ old, alookup clusters (resolveClusterKey cat cId) = some old →
        ∀ rec ∈ r :: rest,
          alookup old (resolveAttrKey cat cId rec.attrId) = some none) :
    (epRead cat clusters cId attrId (r :: rest)).result
        = Except.error ("request unsuccess: " ++ toString r.status) ∧
    (epRead cat clusters cId attrId (r :: rest)).devChange = none := by
  constructor
  · simp [epRead, hall r (List.mem_cons_self _ _)]
  · show (updateFinalizer cat clusters cId (r :: rest) false).2 = none
    unfold updateFinalizer
    cases hc : alookup clusters (resolveClusterKey cat cId) with
    | none => simp [hc]
    | some old =>
      have hdiff : objectDiff old (recsToAttrs cat cId false (r :: rest)) = [] := by
        rw [objectDiff, List.filter_eq_nil_iff]
        intro kv hkv
        rcases recsToAttrs_failed cat cId (r :: rest) hall kv hkv with
          ⟨hv, rec, hm, hk⟩
        simp [hk, hv, hcache old hc rec hm]
      simp [hc, hdiff]

/-- C2 witness: with the attribute previously cached as `null`, the failing
read (`status 0x86 = 134`) rejects and emits no `devChange`. -/
theorem ep_read_all_failed_witness :
    (epRead catNone [(Key.num 0, [(Key.num 0, none)])] 0 0
        [{ attrId := 0, status := 134 }]).result
      = Except.error "request unsuccess: 134" ∧
    (epRead catNone [(Key.num 0, [(Key.num 0, none)])] 0 0
        [{ attrId := 0, status := 134 }]).devChange = none := by
  refine ep_read_all_failed catNone [(Key.num 0, [(Key.num 0, none)])] 0 0
    { attrId := 0, status := 134 } [] ?_ ?_
  · intro rec hm
    rw [List.mem_singleton] at hm
    subst hm
    decide
  · intro old hold rec hm
    rw [List.mem_singleton] at hm
    subst hm
    have h2 : [(Key.num 0, (none : AttrVal))] = old := Option.some.inj hold
    rw [← h2]
    rfl

/-- C2 counterexample: the claim quantifies over every prior cache state,
but when the attribute was previously cached with a non-null value the
failing read stores `null` and a `devChange` IS emitted: the rejection is
the same, yet `devChange` carries `{0: null}`. -/
theorem ep_read_all_failed_counterexample :
    (epRead catNone [(Key.num 0, [(Key.num 0, some 2400)])] 0 0
        [{ attrId := 0, status := 134 }]).result
      = Except.error "request unsuccess: 134" ∧
    (epRead catNone [(Key.num 0, [(Key.num 0, some 2400)])] 0 0
        [{ attrId := 0, status := 134 }]).devChange
      = some (Key.num 0, [(Key.num 0, none)]) :=
  ⟨rfl, rfl⟩

/-! ## Claim C6 -/

/-- C6: on an attribute-report indication (`_updateFinalizer` with
`reported = true`) the reporter's values are written into the endpoint's
cluster cache with no status gating (re-stamping every record's status
leaves `newAttrs` unchanged), and a reported attribute's cache entry
changes exactly when the reported value differs from the one previously
cached. -/
theorem reported_update_spec (cat : Catalog) (clusters : Clusters)
    (cId : Nat) (attrs : List ReadRec) (oldAttrs : AttrMap) (k : Key)
    (v : AttrVal)
    (hc : alookup clusters (resolveClusterKey cat cId) = some oldAttrs)
    (hk : alookup (recsToAttrs cat cId true attrs) k = some v) :
    (∀ f : ReadRec → Nat,
      recsToAttrs cat cId true (attrs.map fun r => { r with status := f r })
        = recsToAttrs cat cId true attrs) ∧
    ∃ newAttrs,
      alookup (updateFinalizer cat clusters cId attrs true).1
          (resolveClusterKey cat cId) = some newAttrs ∧
      alookup newAttrs k = some v ∧
      (alookup newAttrs k ≠ alookup oldAttrs k ↔ alookup oldAttrs k ≠ some v) := by
  refine ⟨fun f => recsToAttrs_status_irrel cat cId f attrs, ?_⟩
  have hnd := nodup_keys_recsToAttrs cat cId true attrs
  have hlf := alookup_filter (recsToAttrs cat cId true attrs)
    (fun kv => decide (alookup oldAttrs kv.1 ≠ some kv.2)) k v hnd hk
  unfold updateFinalizer
  simp only [hc]
  by_cases hemp : (objectDiff oldAttrs (recsToAttrs cat cId true attrs)).isEmpty
  · have hnil : objectDiff oldAttrs (recsToAttrs cat cId true attrs) = [] :=
      List.isEmpty_iff.mp hemp
    have hold : alookup oldAttrs k = some v := by
      rw [objectDiff] at hnil
      rw [hnil] at hlf
      by_contra hne
      simp [hne, alookup] at hlf
    refine ⟨oldAttrs, ?_, hold, ?_⟩
    · simp [hemp, hc]
    · rw [hold]
  · have hnddiff :
        ((objectDiff oldAttrs (recsToAttrs cat cId true attrs)).map
          Prod.fst).Nodup :=
      List.Nodup.sublist ((List.filter_sublist _).map Prod.fst) hnd
    have hnew : alookup (applyDiff oldAttrs
        (objectDiff oldAttrs (recsToAttrs cat cId true attrs))) k = some v := by
      rw [alookup_applyDiff _ _ _ hnddiff]
      rw [objectDiff]
      rw [hlf]
      by_cases hp : alookup oldAttrs k ≠ some v
      · simp [hp, Option.or]
      · push_neg at hp
        simp [hp, Option.or]
    refine ⟨applyDiff oldAttrs
      (objectDiff oldAttrs (recsToAttrs cat cId true attrs)), ?_, hnew, ?_⟩
    · simp [hemp, alookup_upsert_self]
    · rw [hnew]
      exact ne_comm

/-- C6 witness: a report `{attrId:3, attrData:2400}` (any status stamp)
overwrites `hwVersion`, previously 100, and the cache entry changes. -/
theorem reported_update_spec_witness :
    (∀ f : ReadRec → Nat,
      recsToAttrs catBasic 0 true
          (([{ attrId := 3, status := 99, dataType := some 33,
               attrData := some 2400 }] : List ReadRec).map
            fun r => { r with status := f r })
        = recsToAttrs catBasic 0 true
            [{ attrId := 3, status := 99, dataType := some 33,
               attrData := some 2400 }]) ∧
    ∃ newAttrs,
      alookup (updateFinalizer catBasic
          [(Key.name "genBasic", [(Key.name "hwVersion", some 100)])] 0
          [{ attrId := 3, status := 99, dataType := some 33,
             attrData := some 2400 }] true).1
          (resolveClusterKey catBasic 0) = some newAttrs ∧
      alookup newAttrs (Key.name "hwVersion") = some (some 2400) ∧
      (alookup newAttrs (Key.name "hwVersion")
          ≠ alookup ([(Key.name "hwVersion", some 100)] : AttrMap)
              (Key.name "hwVersion") ↔
        alookup ([(Key.name "hwVersion", some 100)] : AttrMap)
            (Key.name "hwVersion")
          ≠ some (some 2400)) :=
  reported_update_spec catBasic
    [(Key.name "genBasic", [(Key.name "hwVersion", some 100)])] 0
    [{ attrId := 3, status := 99, dataType := some 33,
       attrData := some 2400 }]
    [(Key.name "hwVersion", some 100)] (Key.name "hwVersion") (some 2400)
    rfl rfl

/-! ## Claim C3 -/

theorem mqStep_inv (s : MountQState) (e : MEvent)
    (h : s.mounting = s.inflight.isSome) :
    (mqStep s e).mounting = (mqStep s e).inflight.isSome := by
  cases e with
  | arrive id =>
    by_cases hm : s.mounting
    · simpa [mqStep, hm] using h
    · simp [mqStep, hm]
  | complete ok =>
    cases hf : s.inflight with
    | none => simp [mqStep, hf, hf ▸ h]
    | some id => simp [mqStep, hf]
  | tick =>
    by_cases ht : s.tickScheduled
    · cases hq : s.queue with
      | nil => simpa [mqStep, ht, hq] using h
      | cons q ts =>
        by_cases hm : s.mounting
        · simpa [mqStep, ht, hq, hm] using h
        · simp [mqStep, ht, hq, hm]
    · simpa [mqStep, ht] using h

theorem mqRun_inv (evs : List MEvent) :
    (mqRun evs).mounting = (mqRun evs).inflight.isSome := by
  have h : ∀ (l : List MEvent) (s : MountQState),
      s.mounting = s.inflight.isSome →
      (l.foldl mqStep s).mounting = (l.foldl mqStep s).inflight.isSome := by
    intro l
    induction l with
    | nil => intro s hs; exact hs
    | cons e rest ih => intro s hs; exact ih _ (mqStep_inv s e hs)
  exact h evs mqInit rfl

/-- C3: in every reachable serializer state at most one mount is in flight
(`_mounting` tracks the in-flight chain exactly); a `mount` call arriving
while one is in flight only appends to the FIFO queue; a completion —
resolution or rejection alike — settles exactly the in-flight mount and
schedules a drain tick iff the queue is non-empty; and each tick pops
exactly the queue's head and starts it. -/
theorem mount_serializer_spec (evs : List MEvent) :
    ((mqRun evs).mounting = (mqRun evs).inflight.isSome) ∧
    (∀ id, (mqRun evs).mounting = true →
      mqStep (mqRun evs) (MEvent.arrive id)
        = { mqRun evs with queue := (mqRun evs).queue ++ [id] }) ∧
    (∀ id ok, (mqRun evs).inflight = some id →
      mqStep (mqRun evs) (MEvent.complete ok)
        = { mqRun evs with
              mounting := false, inflight := none,
              settled := (mqRun evs).settled ++ [(id, ok)],
              tickScheduled := !(mqRun evs).queue.isEmpty }) ∧
    (∀ q ts, (mqRun evs).tickScheduled = true →
      (mqRun evs).queue = q :: ts → (mqRun evs).mounting = false →
      mqStep (mqRun evs) MEvent.tick
        = { mqRun evs with
              mounting := true, inflight := some q, queue := ts,
              tickScheduled := false }) := by
  refine ⟨mqRun_inv evs, fun id hm => ?_, fun id ok hf => ?_,
    fun q ts ht hq hm => ?_⟩
  · simp [mqStep, hm]
  · simp [mqStep, hf]
  · simp [mqStep, ht, hq, hm]

/-- C3 witness: two mounts arrive (the second queues behind the first), the
first fails; the scheduled tick then starts the queued mount, leaving the
first settled as rejected. -/
theorem mount_serializer_spec_witness :
    mqStep (mqRun [MEvent.arrive 1, MEvent.arrive 2, MEvent.complete false])
        MEvent.tick
      = { mounting := true, inflight := some 2, queue := [],
          tickScheduled := false, settled := [(1, false)] } := by
  have h := (mount_serializer_spec
    [MEvent.arrive 1, MEvent.arrive 2, MEvent.complete false]).2.2.2
    2 [] rfl rfl rfl
  rw [h]
  rfl

/-! ## Claim C4 -/

/-- C4: a successful mount with the coordinator present assigns the new
Coordpoint the endpoint id `max(coord.epList) + 1` when that max exceeds
10 and `11` otherwise, and resolves with exactly that id. -/
theorem mount_ep_id_spec (st : AppState) (env : MountEnv) (zApp : Nat)
    (c : Coord) (m : Nat)
    (hz : zApp ∉ st.zApps) (hc : st.coord = some c)
    (hm : c.epList.max? = some m)
    (hr : env.registerOk = true) (hi : env.coordInfoOk = true) :
    (mountAttempt st env zApp).2
      = Except.ok (if m > 10 then m + 1 else 11) := by
  simp [mountAttempt, hz, hc, assignEpId, hm, hr, hi]

/-- C4 witness: with `coord.epList = [1, 2, 11]` the mount resolves with
endpoint id 12. -/
theorem mount_ep_id_spec_witness :
    (mountAttempt
        { zApps := [], coord := some { epList := [1, 2, 11], endpoints := [1, 2, 11] } }
        { registerOk := true, coordInfoOk := true } 7).2 = Except.ok 12 := by
  have h := mount_ep_id_spec
    { zApps := [], coord := some { epList := [1, 2, 11], endpoints := [1, 2, 11] } }
    { registerOk := true, coordInfoOk := true } 7
    { epList := [1, 2, 11], endpoints := [1, 2, 11] } 11
    (List.not_mem_nil 7) rfl (by decide) rfl rfl
  simpa using h

/-! ## Claim C9 -/

/-- C9: a mount that passes the duplicate check and then fails (here: no
coordinator initialised) leaves the zApp in the mounted-app list, so every
later mount of the same zApp rejects with `zApp already exists.` even
though no endpoint was mounted, until `stop()` clears the list. -/
theorem mount_failure_not_atomic (st : AppState) (env env2 : MountEnv)
    (zApp : Nat) (hz : zApp ∉ st.zApps) (hc : st.coord = none) :
    (mountAttempt st env zApp).2
        = Except.error "Coordinator has not been initialized yet." ∧
    zApp ∈ (mountAttempt st env zApp).1.zApps ∧
    (mountAttempt (mountAttempt st env zApp).1 env2 zApp).2
        = Except.error "zApp already exists." ∧
    (stopApps (mountAttempt st env zApp).1).zApps = [] := by
  have hstep : mountAttempt st env zApp
      = ({ st with zApps := st.zApps ++ [zApp] },
         Except.error "Coordinator has not been initialized yet.") := by
    simp [mountAttempt, hz, hc]
  refine ⟨by rw [hstep], ?_, ?_, ?_⟩
  · rw [hstep]
    simp
  · rw [hstep]
    simp [mountAttempt]
  · rw [hstep]
    simp [stopApps]

/-- C9 witness: mounting app 7 with no coordinator fails but leaves it
registered; remounting rejects as a duplicate; `stop` clears the list. -/
theorem mount_failure_not_atomic_witness :
    (mountAttempt { zApps := [], coord := none }
        { registerOk := true, coordInfoOk := true } 7).2
        = Except.error "Coordinator has not been initialized yet." ∧
    7 ∈ (mountAttempt { zApps := [], coord := none }
        { registerOk := true, coordInfoOk := true } 7).1.zApps ∧
    (mountAttempt (mountAttempt { zApps := [], coord := none }
          { registerOk := true, coordInfoOk := true } 7).1
        { registerOk := true, coordInfoOk := true } 7).2
        = Except.error "zApp already exists." ∧
    (stopApps (mountAttempt { zApps := [], coord := none }
        { registerOk := true, coordInfoOk := true } 7).1).zApps = [] :=
  mount_failure_not_atomic { zApps := [], coord := none }
    { registerOk := true, coordInfoOk := true }
    { registerOk := true, coordInfoOk := true } 7
    (List.not_mem_nil 7) rfl

/-! ## Claim C7 -/

/-- C7: `reset('hard')` and `reset(0)` issue a store removal for every id
currently persisted (and check emptiness once the removals resolve), a
non-hard reset removes nothing, and for every removal outcome — including
failure — the Controller's radio reset is still issued with the given
mode. -/
theorem reset_spec (mode : Mode) (storeIds : List Nat)
    (removeOk : Nat → Bool) :
    (reset mode storeIds removeOk).radioReset = mode ∧
    ((mode = Mode.str "hard" ∨ mode = Mode.num 0) →
      (reset mode storeIds removeOk).removesIssued = storeIds ∧
      (storeIds.all removeOk = true →
        (reset mode storeIds removeOk).emptinessChecked = true)) ∧
    (isHardMode mode = false →
      (reset mode storeIds removeOk).removesIssued = []) := by
  have hh : (mode = Mode.str "hard" ∨ mode = Mode.num 0) →
      isHardMode mode = true := by
    rintro (rfl | rfl) <;> rfl
  refine ⟨?_, fun h => ?_, fun h => ?_⟩
  · by_cases hm : isHardMode mode <;> simp [reset, hm]
  · constructor
    · simp [reset, hh h]
    · intro hall
      simp [reset, hh h, hall]
  · simp [reset, h]

/-- C7 witness: a hard reset over ids `[1, 2]` whose removals all fail
still issues both removals and still commands the radio reset with mode
`'hard'`. -/
theorem reset_spec_witness :
    (reset (Mode.str "hard") [1, 2] (fun _ => false)).radioReset
        = Mode.str "hard" ∧
    (reset (Mode.str "hard") [1, 2] (fun _ => false)).removesIssued
        = [1, 2] := by
  have h := reset_spec (Mode.str "hard") [1, 2] (fun _ => false)
  exact ⟨h.1, (h.2.1 (Or.inl rfl)).1⟩

/-! ## Claim C10 -/

/-- C10: when a delegator exists and the bind succeeds, a `configReport`
response with non-zero first status still lets the caller's promise resolve
(with `undefined`); the rejection carrying the status name goes only to the
internal deferred that `ep.report` never returns. -/
theorem report_swallow_spec (profId : Nat) (s : Nat)
    (statusKey : Nat → String) (hs : s ≠ 0) :
    (epReport profId true true s statusKey).callerResult = Except.ok () ∧
    (epReport profId true true s statusKey).internalRejection
      = some (statusKey s) := by
  constructor <;> simp [epReport, hs]

/-- C10 witness: status 134 (0x86) — the caller resolves, the internal
deferred rejects with the status key. -/
theorem report_swallow_spec_witness :
    (epReport 260 true true 134 (fun n => toString n)).callerResult
        = Except.ok () ∧
    (epReport 260 true true 134 (fun n => toString n)).internalRejection
        = some "134" := by
  have h := report_swallow_spec 260 134 (fun n => toString n) (by decide)
  exact ⟨h.1, h.2⟩

/-! ## Claim C8 -/

theorem findDevByAddr_self (devs : List Dev) (d : Dev)
    (hnd : (devs.map Dev.ieeeAddr).Nodup) (hd : d ∈ devs) :
    findDevByAddr devs d.ieeeAddr = some d := by
  induction devs with
  | nil => cases hd
  | cons d0 rest ih =>
    simp only [List.map_cons, List.nodup_cons] at hnd
    by_cases h0 : d0.ieeeAddr = d.ieeeAddr
    · rcases List.mem_cons.mp hd with rfl | hmem
      · simp [findDevByAddr, List.find?]
      · exact absurd (h0 ▸ List.mem_map_of_mem Dev.ieeeAddr hmem) hnd.1
    · rcases List.mem_cons.mp hd with rfl | hmem
      · exact absurd rfl h0
      · have hstep : findDevByAddr (d0 :: rest) d.ieeeAddr
            = findDevByAddr rest d.ieeeAddr := by
          simp [findDevByAddr, List.find?_cons_of_neg, h0]
        rw [hstep]
        exact ih hnd.2 hmem

/-- C8: `list` with no argument returns one public dump per registered
device, excluding `incomplete` devices unless `showIncomplete`; a single
IEEE behaves as a one-element array; with an array the result has the same
length, a known address yielding that device's dump minus `{id, endpoints}`
and an unknown address an `undefined` slot — so `list([unknown])` is
`[undefined]`. -/
theorem list_spec (devs : List Dev) (si : Bool) :
    (∀ a, listFn devs (ListArg.one a) si = listFn devs (ListArg.many [a]) si) ∧
    (∀ l, (listFn devs (ListArg.many l) si).length = l.length) ∧
    (∀ a, findDevByAddr devs a = none →
      listFn devs (ListArg.many [a]) si = [none]) ∧
    (∀ a d, findDevByAddr devs a = some d →
      listFn devs (ListArg.many [a]) si = [some (dumpPub d)]) ∧
    ((devs.map Dev.ieeeAddr).Nodup →
      listFn devs ListArg.noarg si
        = (devs.filter (fun d => si || !d.incomplete)).map
            (fun d => some (dumpPub d))) := by
  refine ⟨fun a => rfl, fun l => ?_, fun a h => ?_, fun a d h => ?_,
    fun hnd => ?_⟩
  · simp [listFn]
  · simp [listFn, h]
  · simp [listFn, h]
  · simp only [listFn, List.map_map]
    refine List.map_congr_left ?_
    intro d hd
    have hmem : d ∈ devs := List.mem_of_mem_filter hd
    simp [Function.comp, findDevByAddr_self devs d hnd hmem]

/-- C8 witness: one registered complete device with address 10;
`list(['99'])` gives a single undefined slot, `list()` gives the device's
public dump. -/
theorem list_spec_witness :
    listFn [devA] (ListArg.many [99]) false = [none] ∧
    listFn [devA] ListArg.noarg false = [some (dumpPub devA)] := by
  have h := list_spec [devA] false
  refine ⟨h.2.2.1 99 rfl, ?_⟩
  have h5 := h.2.2.2.2 (by simp)
  simpa [devA] using h5

/-! ## Claim C5 -/

theorem markError_scanInv (start : Nat) (nd : List ScanRec) (addr : Nat)
    (h : ScanInv start nd) : ScanInv start (markError nd addr) := by
  obtain ⟨hnd, ⟨r, rest, heq, haddr, hpar⟩, hzero⟩ := h
  have hmap : (markError nd addr).map ScanRec.ieeeAddr
      = nd.map ScanRec.ieeeAddr := by
    simp only [markError, List.map_map]
    refine List.map_congr_left fun r2 _ => ?_
    by_cases h2 : r2.ieeeAddr == addr <;> simp [Function.comp, h2]
  refine ⟨hmap ▸ hnd, ?_, ?_⟩
  · subst heq
    have hcons : markError (r :: rest) addr
        = (if r.ieeeAddr == addr then { r with error := true } else r)
          :: markError rest addr := by
      simp [markError]
    refine ⟨_, _, hcons, ?_, ?_⟩
    · by_cases h2 : r.ieeeAddr == addr
      · rw [if_pos h2]
        exact haddr
      · rw [if_neg h2]
        exact haddr
    · by_cases h2 : r.ieeeAddr == addr
      · rw [if_pos h2]
        exact hpar
      · rw [if_neg h2]
        exact hpar
  · intro hs r2 hr2
    simp only [markError, List.mem_map] at hr2
    obtain ⟨r3, hr3, heq3⟩ := hr2
    have : r2.ieeeAddr = r3.ieeeAddr := by
      subst heq3
      by_cases h2 : r3.ieeeAddr == addr <;> simp [h2]
    rw [this]
    exact hzero hs r3 hr3

theorem procData_scanInv (env : ScanEnv) (parent start : Nat) :
    ∀ (data : List Neighbor) (nd : List ScanRec) (set : List Nat),
      ScanInv start nd → ScanInv start (procData env parent data nd set).1 := by
  intro data
  induction data with
  | nil => intro nd set h; simpa [procData] using h
  | cons nb rest ih =>
    intro nd set h
    by_cases h0 : nb.ieeeAddr = 0
    · simp only [procData, if_pos h0]
      exact ih nd set h
    · by_cases hdup : nd.any (fun r => r.ieeeAddr == nb.ieeeAddr)
      · simp only [procData, if_neg h0, hdup, if_pos]
        exact ih nd set h
      · have hnotmem : nb.ieeeAddr ∉ nd.map ScanRec.ieeeAddr := by
          intro hmem
          rcases List.mem_map.mp hmem with ⟨r2, hr2, heq2⟩
          exact hdup (List.any_eq_true.mpr ⟨r2, hr2, by simp [heq2]⟩)
        obtain ⟨hnd, ⟨r, tail, heq, haddr, hpar⟩, hzero⟩ := h
        have hinv2 : ScanInv start (nd ++
            [{ ieeeAddr := nb.ieeeAddr, nwkAddr := some nb.nwkAddr,
               lqi := some nb.lqi, parent := some parent,
               status := match env.registry nb.ieeeAddr with
                 | some d => d.status
                 | none => "offline" }]) := by
          refine ⟨?_, ?_, ?_⟩
          · rw [List.map_append]
            rw [List.nodup_append]
            exact ⟨hnd, List.nodup_singleton _,
              by simpa [List.disjoint_singleton] using hnotmem⟩
          · exact ⟨r, tail ++ [_], by rw [heq]; rfl, haddr, hpar⟩
          · intro hs r2 hr2
            rcases List.mem_append.mp hr2 with hin | hin
            · exact hzero hs r2 hin
            · rw [List.mem_singleton] at hin
              subst hin
              exact h0
        simp only [procData, if_neg h0, hdup, if_neg, Bool.false_eq_true,
          not_false_eq_true]
        exact ih _ _ hinv2

theorem scanStep_scanInv (env : ScanEnv) (start : Nat) :
    ∀ (frontier : List Nat) (nd : List ScanRec) (next : List Nat),
      ScanInv start nd → ScanInv start (scanStep env frontier nd next).1 := by
  intro frontier
  induction frontier with
  | nil => intro nd next h; simpa [scanStep] using h
  | cons addr rest ih =>
    intro nd next h
    cases hr : env.lqiResp addr with
    | none =>
      simp only [scanStep, hr]
      exact ih _ _ (markError_scanInv start nd addr h)
    | some data =>
      simp only [scanStep, hr]
      exact ih _ _ (procData_scanInv env addr start data nd [] h)

theorem scanLoop_scanInv (env : ScanEnv) (start : Nat) :
    ∀ (fuel : Nat) (nd : List ScanRec) (frontier : List Nat),
      ScanInv start nd → ScanInv start (scanLoop env fuel nd frontier) := by
  intro fuel
  induction fuel with
  | zero => intro nd frontier h; simpa [scanLoop] using h
  | succ fuel ih =>
    intro nd frontier h
    cases frontier with
    | nil => simpa [scanLoop] using h
    | cons a rest =>
      simp only [scanLoop]
      exact ih _ _ (scanStep_scanInv env start (a :: rest) nd [] h)

/-- C5 (amended): every record of a completed `lqiScan` has a unique
`ieeeAddr` (first sighting wins — later sightings never replace it), the
start node appears exactly once, as the head, with no `parent` set; and
provided the start address is not itself `0x0000000000000000`, no record
with the all-zero IEEE appears (zero-IEEE neighbours are always skipped;
only a zero start address can place one in the result). -/
theorem lqiScan_result_spec (env : ScanEnv) (start fuel : Nat)
    (result : List ScanRec)
    (h : lqiScan env start fuel = Except.ok result) :
    (result.map ScanRec.ieeeAddr).Nodup ∧
    (∃ r rest, result = r :: rest ∧ r.ieeeAddr = start ∧ r.parent = none ∧
      ∀ r2 ∈ rest, r2.ieeeAddr ≠ start) ∧
    (start ≠ 0 → ∀ r ∈ result, r.ieeeAddr ≠ 0) := by
  cases hr : env.lqiResp start with
  | none => simp [lqiScan, hr] at h
  | some data =>
    have hres : result = scanLoop env fuel
        (procData env start data [seedRec start] []).1
        (procData env start data [seedRec start] []).2 := by
      simp only [lqiScan, hr, Except.ok.injEq] at h
      exact h.symm
    have hinv0 : ScanInv start [seedRec start] := by
      refine ⟨by simp, ⟨seedRec start, [], rfl, rfl, rfl⟩, ?_⟩
      intro hs r hrm
      rw [List.mem_singleton] at hrm
      subst hrm
      exact hs
    have hinv := scanLoop_scanInv env start fuel
      (procData env start data [seedRec start] []).1
      (procData env start data [seedRec start] []).2
      (procData_scanInv env start start data _ [] hinv0)
    rw [hres]
    refine ⟨hinv.1, ?_, hinv.2.2⟩
    obtain ⟨r, rest, heq, haddr, hpar⟩ := hinv.2.1
    refine ⟨r, rest, heq, haddr, hpar, ?_⟩
    intro r2 hr2 haddr2
    have hnd := hinv.1
    rw [heq] at hnd
    simp only [List.map_cons, List.nodup_cons] at hnd
    exact hnd.1 (haddr ▸ haddr2 ▸ List.mem_map_of_mem ScanRec.ieeeAddr hr2)

/-- C5 witness: a scan from address 5 over an empty network returns just
the start record — unique addresses, start first with no parent, no
all-zero record. -/
theorem lqiScan_result_spec_witness :
    ([seedRec 5].map ScanRec.ieeeAddr).Nodup ∧
    (∃ r rest, [seedRec 5] = r :: rest ∧
      r.ieeeAddr = 5 ∧ r.parent = none ∧ ∀ r2 ∈ rest, r2.ieeeAddr ≠ 5) ∧
    (∀ r ∈ [seedRec 5], r.ieeeAddr ≠ 0) := by
  have h := lqiScan_result_spec scanEnvEmpty 5 1 [seedRec 5] rfl
  exact ⟨h.1, h.2.1, h.2.2 (by decide)⟩

/-- C5 counterexample: the claim admits *any* start address, but a scan
started from `0x0000000000000000` returns a record with the all-zero IEEE
(the pre-seeded start record itself): only neighbour entries are skipped,
the seed is not. -/
theorem lqiScan_zero_counterexample :
    lqiScan scanEnvEmpty 0 1 = Except.ok [seedRec 0] ∧
    (seedRec 0).ieeeAddr = 0 :=
  ⟨rfl, rfl⟩

end ZShepherd
